import Mathlib

/-!
# Verification of the image-download-tool download engine

Shallow embedding of the backend download service
(`DownloadService` in the server sources) and its HTTP routes
(`/api/downloads`), translated function by function from the
TypeScript source.  The embedded functions mirror:

* `updateTaskStatus`, `updateTaskProgress` (task mutation + event emission),
* the per-chunk `data` handler of `downloadDockerBlob` and the blob
  download loop of `executeDownload`,
* `verifyFile` (which only logs), `pauseDownload`, `resumeDownload`,
  `retryDownload`, `cleanupCompletedTasks`,
* the catch-block retry policy of `executeDownload`,
* the platform-entry selection in `getDockerManifestInfo`,
* the route handlers for create / pause / resume / delete.

A reference implementation of SHA-256 (FIPS 180-4) over byte lists is
included so that digest-verification claims can be evaluated on
concrete data.
-/

namespace ImageDownloadTool

/-- Task status values used by the backend service
(`'pending' | 'downloading' | 'paused' | 'completed' | 'error'`,
plus `'cancelled'` which `cancelDownload` assigns). -/
inductive DownloadStatus where
  | pending
  | downloading
  | paused
  | completed
  | error
  | cancelled
deriving DecidableEq, Repr

/-- The task record of the download service, with the fields the backend
code reads or writes (`DownloadTask` interface plus the dynamically
attached `downloadedSize` and `retryCount` fields).  Timestamps are
abstracted to naturals; `progress` and `speed` are rationals standing
for the JavaScript numbers. -/
structure DownloadTask where
  id : String
  imageName : String
  tag : String
  source : String
  status : DownloadStatus
  progress : Rat
  speed : Rat
  totalBytes : Nat
  downloadedBytes : Nat
  downloadedSize : Nat
  retryCount : Nat
  targetPath : String
  error : Option String
  checksum : Option String
  createdAt : Nat
  updatedAt : Nat
deriving DecidableEq, Repr

/-- Events emitted by the service (`EventEmitter` channels:
`taskCreated`, `taskUpdated`, `taskPaused`, `taskCancelled`,
`downloadProgress`, `downloadComplete`, `downloadError`).
`resumeIssued` is a marker for an external `resume` request reaching the
service; the service itself never emits it, so its absence from a trace
records that no resume was issued during that trace. -/
inductive Event where
  | taskCreated
  | taskUpdated (status : DownloadStatus)
  | taskPaused
  | taskCancelled
  | downloadProgress (progress : Rat)
  | downloadComplete
  | downloadError
  | resumeIssued
deriving DecidableEq, Repr

/-- `retryAttempts` field of `DownloadService` (default 3). -/
def retryAttempts : Nat := 3

/-- `updateTaskStatus(taskId, status, additionalData)`: sets the status
and `updatedAt`, merges the optional error message, emits `taskUpdated`
and, for terminal statuses, `downloadComplete` / `downloadError`. -/
def updateTaskStatus (t : DownloadTask) (status : DownloadStatus)
    (err : Option String) (now : Nat) : DownloadTask × List Event :=
  let t1 : DownloadTask :=
    { t with
      status := status
      updatedAt := now
      error := match err with | some e => some e | none => t.error }
  let extra : List Event :=
    match status with
    | DownloadStatus.completed => [Event.downloadComplete]
    | DownloadStatus.error => [Event.downloadError]
    | _ => []
  (t1, Event.taskUpdated status :: extra)

/-- `updateTaskProgress(taskId, progress, downloadedSize, speed)`:
clamps the progress to at most 100 via `Math.min(progress, 100)`
(written as an explicit comparison so it evaluates), records it with
the byte count and speed, and emits `downloadProgress`. -/
def updateTaskProgress (t : DownloadTask) (progress : Rat)
    (downloadedSize : Nat) (speed : Rat) (now : Nat) :
    DownloadTask × List Event :=
  let t1 : DownloadTask :=
    { t with
      progress := if progress ≤ 100 then progress else 100
      downloadedSize := downloadedSize
      speed := speed
      updatedAt := now }
  (t1, [Event.downloadProgress t1.progress])

/-- The per-chunk `data` handler inside `downloadDockerBlob`: the
denominator is `task.totalBytes || (expectedSize || 0)`, the new byte
count is `task.downloadedBytes + chunk.length`, and the progress
argument is the percentage when the denominator is non-zero, else the
task's current progress. -/
def blobDataStep (expectedSize now : Nat) (t : DownloadTask)
    (chunkLen : Nat) : DownloadTask × List Event :=
  let total : Nat := if t.totalBytes ≠ 0 then t.totalBytes else expectedSize
  let newDownloaded : Nat := t.downloadedBytes + chunkLen
  let p : Rat :=
    if total ≠ 0 then ((newDownloaded : Rat) / (total : Rat)) * 100
    else t.progress
  updateTaskProgress t p newDownloaded 0 now

/-- Processing of a sequence of stream chunks (given by their byte
lengths) through the `data` handler, collecting every emitted event. -/
def processChunks (expectedSize now : Nat) :
    DownloadTask → List Nat → DownloadTask × List Event
  | t, [] => (t, [])
  | t, c :: cs =>
    let s1 := blobDataStep expectedSize now t c
    let s2 := processChunks expectedSize now s1.1 cs
    (s2.1, s1.2 ++ s2.2)

/-- A layer descriptor of the selected manifest; `size` is optional in
the JSON and the code reads it as `l.size || 0`. -/
structure Layer where
  digest : String
  size : Option Nat
deriving DecidableEq, Repr

/-- Result of manifest resolution as used by `executeDownload`
(`manifestInfo`): the layer list of the selected concrete manifest and
the `size` field of its config descriptor.  `executeDownload` only
reads `layers`; `configSize` is carried because the manifest document
contains it and the spec formula refers to it. -/
structure ManifestInfo where
  layers : List Layer
  configSize : Nat
deriving DecidableEq, Repr

/-- `const totalBytes = manifestInfo.layers.reduce((sum, l) => sum + (l.size || 0), 0)` -/
def layersTotalBytes (layers : List Layer) : Nat :=
  layers.foldl (fun s l => s + l.size.getD 0) 0

/-- Follows the spec's words (for comparison with the code):
`total_bytes` is `config.size + Σ layers[i].size`. -/
def specTotalBytes (mi : ManifestInfo) : Nat :=
  mi.configSize + layersTotalBytes mi.layers

/-- `verifyFile(task)`: the source only logs a message and returns;
it performs no hash computation and never fails. -/
def verifyFile (_t : DownloadTask) : Bool :=
  true

/-- Result of streaming one blob from the registry: either the sequence
of byte chunks the server delivered, or a stream error. -/
inductive FetchResult where
  | ok (chunks : List (List Nat))
  | err (msg : String)

/-- `downloadDockerBlob` on a stream that reaches clean EOF: every
chunk runs the `data` handler, then `downloadedBytes` is increased by
the blob's local byte count and the file contents are the concatenated
chunks.  No digest of the written bytes is computed anywhere. -/
def downloadBlobOk (t : DownloadTask) (chunks : List (List Nat))
    (expectedSize now : Nat) : DownloadTask × List Event × List Nat :=
  let s := processChunks expectedSize now t (chunks.map List.length)
  let downloaded : Nat := (chunks.map List.length).foldl (fun a b => a + b) 0
  let t2 : DownloadTask :=
    { s.1 with downloadedBytes := s.1.downloadedBytes + downloaded }
  (t2, s.2, chunks.foldl (fun acc c => acc ++ c) [])

/-- The layer loop of `executeDownload`: downloads each layer blob in
manifest order into `blobs/<safe(digest)>`; the first stream error
aborts the loop and is rethrown to the surrounding catch. -/
def downloadLayers (fetch : String → FetchResult) (now : Nat) :
    DownloadTask → List Layer →
    Except (DownloadTask × String) (DownloadTask × List Event × List (String × List Nat))
  | t, [] => Except.ok (t, [], [])
  | t, l :: ls =>
    match fetch l.digest with
    | FetchResult.err m => Except.error (t, m)
    | FetchResult.ok chunks =>
      let r := downloadBlobOk t chunks (l.size.getD 0) now
      match downloadLayers fetch now r.1 ls with
      | Except.error e => Except.error e
      | Except.ok (t2, evs2, files) =>
        Except.ok (t2, r.2.1 ++ evs2, (l.digest, r.2.2) :: files)

/-- Outcome of one `executeDownload` attempt: the final task record,
all events emitted during the attempt, and the blob files written on
the successful path (digest paired with file bytes). -/
structure RunResult where
  task : DownloadTask
  events : List Event
  files : List (String × List Nat)
deriving DecidableEq

/-- One attempt of `executeDownload` (the `try` body plus the
`updateTaskStatus(taskId, 'error', ...)` of the catch): set status
`downloading`; resolve the manifest; set `totalBytes` to the layer-size
sum; download every layer; call `verifyFile` (which cannot fail); set
status `completed`.  Any thrown error lands in the catch, which records
status `error` with the message. -/
def executeDownloadOnce (t0 : DownloadTask) (mi : Except String ManifestInfo)
    (fetch : String → FetchResult) (now : Nat) : RunResult :=
  let s0 := updateTaskStatus t0 DownloadStatus.downloading none now
  match mi with
  | Except.error m =>
    let s := updateTaskStatus s0.1 DownloadStatus.error (some m) now
    ⟨s.1, s0.2 ++ s.2, []⟩
  | Except.ok info =>
    let t1 : DownloadTask := { s0.1 with totalBytes := layersTotalBytes info.layers }
    match downloadLayers fetch now t1 info.layers with
    | Except.error (tE, m) =>
      let s := updateTaskStatus tE DownloadStatus.error (some m) now
      ⟨s.1, s0.2 ++ s.2, []⟩
    | Except.ok (t2, evs1, files) =>
      let _verified := verifyFile t2
      let s := updateTaskStatus t2 DownloadStatus.completed none now
      ⟨s.1, s0.2 ++ evs1 ++ s.2, files⟩

/-- Decision taken by the catch block of `executeDownload` after the
error status was recorded: if `retryCount < retryAttempts` the counter
is bumped and `executeDownload` is re-entered after a delay, otherwise
the task is left in the error state.  The caught error value is in
scope but never inspected: the decision is the same for every error. -/
inductive RetryDecision where
  | retry (t : DownloadTask)
  | giveUp (t : DownloadTask)
deriving DecidableEq

/-- The retry policy of `executeDownload`'s catch block, applied to the
caught error message and the task. -/
def handleFailure (_errMsg : String) (t : DownloadTask) : RetryDecision :=
  if t.retryCount < retryAttempts then
    RetryDecision.retry { t with retryCount := t.retryCount + 1 }
  else
    RetryDecision.giveUp t

/-- `retryDownload(taskId)`: resets status to `pending`, zeroes
`progress`, `speed`, `downloadedSize` and `retryCount`, refreshes
`updatedAt`, and touches nothing else (in particular neither
`downloadedBytes` nor `error`). -/
def retryDownload (t : DownloadTask) (now : Nat) : DownloadTask :=
  { t with
    status := DownloadStatus.pending
    progress := 0
    speed := 0
    downloadedSize := 0
    retryCount := 0
    updatedAt := now }

/-- The mutable state of the singleton `DownloadService`: the
`activeTasks` map (modelled as an association list in insertion order,
as a JavaScript `Map` iterates) and the set of task ids holding an
`AbortController` in `taskControllers`. -/
structure ServiceState where
  activeTasks : List (String × DownloadTask)
  controllers : List String
deriving DecidableEq

/-- `this.activeTasks.get(taskId)` -/
def getTask (st : ServiceState) (taskId : String) : Option DownloadTask :=
  (st.activeTasks.find? (fun p => p.1 = taskId)).map Prod.snd

/-- `this.activeTasks.set(taskId, task)`: replaces the entry in place if
the key exists, otherwise appends (JavaScript `Map` insertion order). -/
def setTask (st : ServiceState) (taskId : String) (t : DownloadTask) :
    ServiceState :=
  if st.activeTasks.any (fun p => p.1 = taskId) then
    { st with
      activeTasks := st.activeTasks.map
        (fun p => if p.1 = taskId then (taskId, t) else p) }
  else
    { st with activeTasks := st.activeTasks ++ [(taskId, t)] }

/-- `pauseDownload(taskId)`: aborts and discards the task's controller
when present, then, when the task exists and is `downloading`, marks it
`paused` and emits `taskPaused`; otherwise it is a silent no-op on the
task map. -/
def pauseDownload (st : ServiceState) (taskId : String) (now : Nat) :
    ServiceState × List Event :=
  let st1 : ServiceState :=
    { st with controllers := st.controllers.filter (fun c => c ≠ taskId) }
  match getTask st1 taskId with
  | some t =>
    if t.status = DownloadStatus.downloading then
      (setTask st1 taskId
        { t with status := DownloadStatus.paused, updatedAt := now },
       [Event.taskPaused])
    else (st1, [])
  | none => (st1, [])

/-- `cleanupCompletedTasks()`: removes every task whose status is
`completed` or `cancelled` and keeps every other entry. -/
def cleanupCompletedTasks (st : ServiceState) : ServiceState :=
  { st with
    activeTasks := st.activeTasks.filter
      (fun p => p.2.status ≠ DownloadStatus.completed ∧
                p.2.status ≠ DownloadStatus.cancelled) }

/-- `POST /api/downloads/:taskId/pause`: 404 when the task is unknown,
400 (`Task is not in downloading status`) when it is not `downloading`,
otherwise `pauseDownload` runs and 200 is returned. -/
def pauseRoute (st : ServiceState) (taskId : String) (now : Nat) :
    ServiceState × Nat :=
  match getTask st taskId with
  | none => (st, 404)
  | some t =>
    if t.status ≠ DownloadStatus.downloading then (st, 400)
    else ((pauseDownload st taskId now).1, 200)

/-- `POST /api/downloads/:taskId/resume`: 404 when unknown, 400
(`Task is not in paused status`) when not `paused`; otherwise
`resumeDownload` is invoked (it re-runs `executeDownload`
asynchronously, so the synchronous route effect on the task map is
nil) and 200 is returned. -/
def resumeRoute (st : ServiceState) (taskId : String) :
    ServiceState × Nat :=
  match getTask st taskId with
  | none => (st, 404)
  | some t =>
    if t.status ≠ DownloadStatus.paused then (st, 400)
    else (st, 200)

/-- `DELETE /api/downloads/:taskId`: 404 when unknown, 400
(`Cannot delete downloading task`) when the task is `downloading`;
otherwise the handler calls the global `cleanupCompletedTasks()` and
returns 200. -/
def deleteRoute (st : ServiceState) (taskId : String) :
    ServiceState × Nat :=
  match getTask st taskId with
  | none => (st, 404)
  | some t =>
    if t.status = DownloadStatus.downloading then (st, 400)
    else (cleanupCompletedTasks st, 200)

/-- Request body of `POST /api/downloads`; absent fields are modelled
as the empty string (JavaScript falsiness of `undefined` and `""`
coincide for the route's check). -/
structure CreateBody where
  imageName : String
  tag : String
  source : String
  targetPath : Option String
deriving DecidableEq

/-- `startDownload(imageName, tag, source, targetPath)`: builds a fresh
`pending` task record, stores it under the new id, emits `taskCreated`,
kicks off `executeDownload` asynchronously, and returns the record
immediately — no validation of `source` happens here. -/
def startDownload (st : ServiceState) (b : CreateBody) (taskId : String)
    (now : Nat) : ServiceState × DownloadTask × List Event :=
  let task : DownloadTask :=
    { id := taskId
      imageName := b.imageName
      tag := b.tag
      source := b.source
      status := DownloadStatus.pending
      progress := 0
      speed := 0
      totalBytes := 0
      downloadedBytes := 0
      downloadedSize := 0
      retryCount := 0
      targetPath := b.targetPath.getD ("./downloads/tasks/" ++ taskId)
      error := none
      checksum := none
      createdAt := now
      updatedAt := now }
  (setTask st taskId task, task, [Event.taskCreated])

/-- Synchronous result of `POST /api/downloads`: HTTP code plus the
task record returned in `data` when creation happened. -/
structure CreateOutcome where
  state : ServiceState
  code : Nat
  task : Option DownloadTask
deriving DecidableEq

/-- `POST /api/downloads`: 400 only when `imageName`, `tag` or `source`
is missing; otherwise `startDownload` runs and the fresh task record is
returned with code 200, whatever the `source` string is. -/
def createRoute (st : ServiceState) (b : CreateBody) (taskId : String)
    (now : Nat) : CreateOutcome :=
  if b.imageName = "" ∨ b.tag = "" ∨ b.source = "" then
    ⟨st, 400, none⟩
  else
    let r := startDownload st b taskId now
    ⟨r.1, 200, some r.2.1⟩

/-- The source dispatch at the top of `executeDownload`: `dockerhub`
and `aliyun` proceed to manifest resolution; any other source throws
(the thrown error lands in the same catch block as every other
failure). -/
inductive SourceDispatch where
  | dockerhub
  | aliyun
deriving DecidableEq

/-- The `if / else if / else throw` chain on `task.source` in
`executeDownload`. -/
def resolveSourceDispatch (source : String) : Except String SourceDispatch :=
  if source = "dockerhub" then Except.ok SourceDispatch.dockerhub
  else if source = "aliyun" then Except.ok SourceDispatch.aliyun
  else Except.error ("Unsupported image source: " ++ source)

/-- `platform` object of a manifest-list entry. -/
structure Platform where
  os : String
  architecture : String
deriving DecidableEq, Repr

/-- An entry of a manifest list / OCI index (`manifests[i]`). -/
structure ManifestEntry where
  digest : String
  platform : Option Platform
deriving DecidableEq, Repr

/-- The entry selection in `getDockerManifestInfo` (and identically in
`getGenericManifestInfo` and `getDockerHubImageSize`):
`manifests.find(x => x.platform?.architecture === 'amd64') || manifests[0]`.
The requested platform is not a parameter: the architecture string is
hardcoded and the OS is never consulted. -/
def selectManifestEntry (ms : List ManifestEntry) : Option ManifestEntry :=
  match ms.find? (fun m => (m.platform.map Platform.architecture) = some "amd64") with
  | some m => some m
  | none => ms.head?

/-- Follows the claim's words (for comparison with the code): pick the
entry exactly matching the requested platform (os and architecture)
first, then an entry with the same architecture on any OS, then the
first entry of the list. -/
def selectEntryClaim (p : Platform) (ms : List ManifestEntry) :
    Option ManifestEntry :=
  match ms.find? (fun m => m.platform = some p) with
  | some m => some m
  | none =>
    match ms.find? (fun m => (m.platform.map Platform.architecture) = some p.architecture) with
    | some m => some m
    | none => ms.head?

/-- Event trace produced when a successful pause aborts an in-flight
blob stream.  Control flow of the source: `pauseDownload` aborts the
task's `AbortController` and marks the task `paused`; the abort rejects
the pending blob promise inside `executeDownload`, whose catch records
status `error` and — when `retryCount < retryAttempts` — bumps the
counter, waits `retryDelay`, and re-enters `executeDownload`, which
emits `taskUpdated downloading` and, on the next arriving chunk of the
restarted blob stream, a `downloadProgress` event.  No resume request
is involved anywhere on this path (a `resumeIssued` marker would record
one). -/
def pauseAbortRetryTrace (st : ServiceState) (taskId : String)
    (errMsg : String) (chunkLen expectedSize now : Nat) : List Event :=
  let p := pauseDownload st taskId now
  match getTask p.1 taskId with
  | none => p.2
  | some t1 =>
    let c := updateTaskStatus t1 DownloadStatus.error (some errMsg) now
    match handleFailure errMsg c.1 with
    | RetryDecision.giveUp _ => p.2 ++ c.2
    | RetryDecision.retry t2 =>
      let d := updateTaskStatus t2 DownloadStatus.downloading none now
      let pr := blobDataStep expectedSize now d.1 chunkLen
      p.2 ++ c.2 ++ d.2 ++ pr.2

/-! ## SHA-256 (FIPS 180-4) over byte lists

A reference implementation used to evaluate digest claims on concrete
data; all arithmetic is on `Nat` with explicit reduction mod `2^32`. -/

/-- Reduce mod `2^32`. -/
def mod32 (x : Nat) : Nat := x % 4294967296

/-- 32-bit right rotation (input assumed `< 2^32`). -/
def rotr32 (n x : Nat) : Nat := mod32 ((x >>> n) ||| (x <<< (32 - n)))

/-- `Ch(x,y,z)`; 32-bit complement is xor with `2^32 - 1`. -/
def shaCh (x y z : Nat) : Nat := (x &&& y) ^^^ ((x ^^^ 4294967295) &&& z)

/-- `Maj(x,y,z)`. -/
def shaMaj (x y z : Nat) : Nat := (x &&& y) ^^^ (x &&& z) ^^^ (y &&& z)

/-- `Σ₀`. -/
def bigSigma0 (x : Nat) : Nat := rotr32 2 x ^^^ rotr32 13 x ^^^ rotr32 22 x

/-- `Σ₁`. -/
def bigSigma1 (x : Nat) : Nat := rotr32 6 x ^^^ rotr32 11 x ^^^ rotr32 25 x

/-- `σ₀`. -/
def smallSigma0 (x : Nat) : Nat := rotr32 7 x ^^^ rotr32 18 x ^^^ (x >>> 3)

/-- `σ₁`. -/
def smallSigma1 (x : Nat) : Nat := rotr32 17 x ^^^ rotr32 19 x ^^^ (x >>> 10)

/-- The 64 round constants `K` of FIPS 180-4 §4.2.2, written in
decimal. -/
def shaK : List Nat :=
  [1116352408, 1899447441, 3049323471, 3921009573, 961987163,
   1508970993, 2453635748, 2870763221, 3624381080, 310598401,
   607225278, 1426881987, 1925078388, 2162078206, 2614888103,
   3248222580, 3835390401, 4022224774, 264347078, 604807628,
   770255983, 1249150122, 1555081692, 1996064986, 2554220882,
   2821834349, 2952996808, 3210313671, 3336571891, 3584528711,
   113926993, 338241895, 666307205, 773529912, 1294757372,
   1396182291, 1695183700, 1986661051, 2177026350, 2456956037,
   2730485921, 2820302411, 3259730800, 3345764771, 3516065817,
   3600352804, 4094571909, 275423344, 430227734, 506948616,
   659060556, 883997877, 958139571, 1322822218, 1537002063,
   1747873779, 1955562222, 2024104815, 2227730452, 2361852424,
   2428436474, 2756734187, 3204031479, 3329325298]

/-- The initial hash value of FIPS 180-4 §5.3.3, written in decimal. -/
def shaH0 : List Nat :=
  [1779033703, 3144134277, 1013904242, 2773480762, 1359893119,
   2600822924, 528734635, 1541459225]

/-- Big-endian 8-byte encoding of `n`. -/
def be64 (n : Nat) : List Nat :=
  [(n >>> 56) % 256, (n >>> 48) % 256, (n >>> 40) % 256, (n >>> 32) % 256,
   (n >>> 24) % 256, (n >>> 16) % 256, (n >>> 8) % 256, n % 256]

/-- Message padding: append `0x80`, zero bytes to 56 mod 64, then the
bit length as 8 big-endian bytes. -/
def padMessage (msg : List Nat) : List Nat :=
  let k : Nat := (64 - ((msg.length + 9) % 64)) % 64
  msg ++ [128] ++ List.replicate k 0 ++ be64 (8 * msg.length)

/-- Group bytes into big-endian 32-bit words. -/
def toWords : List Nat → List Nat
  | a :: b :: c :: d :: rest =>
    (((a * 256 + b) * 256 + c) * 256 + d) :: toWords rest
  | _ => []

/-- Split a list into 64-element chunks (fueled by the length). -/
def chunksAux : Nat → List Nat → List (List Nat)
  | 0, _ => []
  | _ + 1, [] => []
  | n + 1, l => l.take 64 :: chunksAux n (l.drop 64)

/-- Split a padded message into 64-byte blocks. -/
def chunks64 (l : List Nat) : List (List Nat) := chunksAux l.length l

/-- One message-schedule extension step: appends
`σ₁(w[i-2]) + w[i-7] + σ₀(w[i-15]) + w[i-16]`. -/
def extendStep (w : Array Nat) : Array Nat :=
  let i := w.size
  w.push (mod32 (w.getD (i - 16) 0 + smallSigma0 (w.getD (i - 15) 0) +
                 w.getD (i - 7) 0 + smallSigma1 (w.getD (i - 2) 0)))

/-- Iterate the schedule extension `n` times. -/
def extendW : Nat → Array Nat → Array Nat
  | 0, w => w
  | n + 1, w => extendW n (extendStep w)

/-- The eight working variables of the compression loop. -/
structure ShaState where
  a : Nat
  b : Nat
  c : Nat
  d : Nat
  e : Nat
  f : Nat
  g : Nat
  h : Nat

/-- One compression round with constant `k` and schedule word `w`. -/
def shaRound (k w : Nat) (s : ShaState) : ShaState :=
  let t1 := mod32 (s.h + bigSigma1 s.e + shaCh s.e s.f s.g + k + w)
  let t2 := mod32 (bigSigma0 s.a + shaMaj s.a s.b s.c)
  ⟨mod32 (t1 + t2), s.a, s.b, s.c, mod32 (s.d + t1), s.e, s.f, s.g⟩

/-- Compress one 64-byte block into the running hash value. -/
def compress (hv : List Nat) (block : List Nat) : List Nat :=
  let w := (extendW 48 (Array.mk (toWords block))).toList
  let s0 : ShaState :=
    ⟨hv.getD 0 0, hv.getD 1 0, hv.getD 2 0, hv.getD 3 0,
     hv.getD 4 0, hv.getD 5 0, hv.getD 6 0, hv.getD 7 0⟩
  let sF := (List.zip shaK w).foldl (fun s kw => shaRound kw.1 kw.2 s) s0
  [mod32 (hv.getD 0 0 + sF.a), mod32 (hv.getD 1 0 + sF.b),
   mod32 (hv.getD 2 0 + sF.c), mod32 (hv.getD 3 0 + sF.d),
   mod32 (hv.getD 4 0 + sF.e), mod32 (hv.getD 5 0 + sF.f),
   mod32 (hv.getD 6 0 + sF.g), mod32 (hv.getD 7 0 + sF.h)]

/-- SHA-256 digest of a byte list as eight 32-bit words. -/
def sha256Words (msg : List Nat) : List Nat :=
  (chunks64 (padMessage msg)).foldl compress shaH0

/-- Lowercase hex digit. -/
def hexDigit (n : Nat) : Char :=
  if n < 10 then Char.ofNat (48 + n) else Char.ofNat (87 + n)

/-- Eight-digit lowercase hex encoding of a 32-bit word. -/
def hex8 (n : Nat) : String :=
  String.mk [hexDigit ((n >>> 28) % 16), hexDigit ((n >>> 24) % 16),
             hexDigit ((n >>> 20) % 16), hexDigit ((n >>> 16) % 16),
             hexDigit ((n >>> 12) % 16), hexDigit ((n >>> 8) % 16),
             hexDigit ((n >>> 4) % 16), hexDigit (n % 16)]

/-- SHA-256 digest of a byte list as a 64-character lowercase hex
string. -/
def sha256Hex (msg : List Nat) : String :=
  String.join ((sha256Words msg).map hex8)

/-! ## Concrete instances used by the theorems -/

/-- A task as produced by `startDownload` for `nginx:latest` from
`dockerhub`. -/
def sampleTask : DownloadTask :=
  { id := "1"
    imageName := "nginx"
    tag := "latest"
    source := "dockerhub"
    status := DownloadStatus.pending
    progress := 0
    speed := 0
    totalBytes := 0
    downloadedBytes := 0
    downloadedSize := 0
    retryCount := 0
    targetPath := "./downloads/tasks/1"
    error := none
    checksum := none
    createdAt := 0
    updatedAt := 0 }

/-- A resolved manifest with one three-byte layer; the config
descriptor advertises seven bytes. -/
def miOneLayer : ManifestInfo := ⟨[⟨"sha256:aaa", some 3⟩], 7⟩

/-- A fetcher whose stream always delivers the bytes `[1, 2, 3]`
in a single chunk, whatever digest is requested. -/
def fetchBytes123 : String → FetchResult :=
  fun _ => FetchResult.ok [[1, 2, 3]]

/-- A resolved manifest with layers of 3 and 4 bytes and a config
descriptor of 5 bytes. -/
def miTwoLayers : ManifestInfo :=
  ⟨[⟨"sha256:l1", some 3⟩, ⟨"sha256:l2", some 4⟩], 5⟩

/-- A task mid-download: 30 of 100 bytes fetched, no retry consumed. -/
def downloadingTask : DownloadTask :=
  { sampleTask with
    status := DownloadStatus.downloading
    totalBytes := 100
    downloadedBytes := 30 }

/-- Service state with the single mid-download task under id `1`,
holding an abort controller. -/
def midDownloadState : ServiceState := ⟨[("1", downloadingTask)], ["1"]⟩

/-- A failed task carrying an error message and partial progress. -/
def failedTask : DownloadTask :=
  { sampleTask with
    id := "A"
    status := DownloadStatus.error
    error := some "boom"
    downloadedBytes := 123
    downloadedSize := 99
    progress := 50
    speed := 7
    retryCount := 2 }

/-- A completed task under id `B`. -/
def completedTask : DownloadTask :=
  { sampleTask with id := "B", status := DownloadStatus.completed }

/-- Store holding the failed task `A` and the completed task `B`. -/
def twoTaskState : ServiceState :=
  ⟨[("A", failedTask), ("B", completedTask)], []⟩

/-- Store holding only a completed task under id `C`. -/
def completedOnlyState : ServiceState :=
  ⟨[("C", { sampleTask with id := "C", status := DownloadStatus.completed })], []⟩

/-- The empty service state. -/
def emptyState : ServiceState := ⟨[], []⟩

/-- Create request naming the `quay` source, which the spec lists as a
known registry but the engine's dispatch does not support. -/
def quayBody : CreateBody := ⟨"nginx", "latest", "quay", none⟩

/-- The record `startDownload` builds for `quayBody` under id `42` at
time 5. -/
def quayTask : DownloadTask :=
  { id := "42"
    imageName := "nginx"
    tag := "latest"
    source := "quay"
    status := DownloadStatus.pending
    progress := 0
    speed := 0
    totalBytes := 0
    downloadedBytes := 0
    downloadedSize := 0
    retryCount := 0
    targetPath := "./downloads/tasks/42"
    error := none
    checksum := none
    createdAt := 5
    updatedAt := 5 }

/-- A manifest list carrying a windows/amd64 entry before a
linux/amd64 entry. -/
def windowsFirstList : List ManifestEntry :=
  [⟨"sha256:win", some ⟨"windows", "amd64"⟩⟩,
   ⟨"sha256:lin", some ⟨"linux", "amd64"⟩⟩]

set_option maxRecDepth 100000

/-! ## Theorems -/

/-- FIPS 180-4 test vector: the digest of the empty message. -/
theorem sha256Hex_empty :
    sha256Hex [] =
      "e3b0c44298fc1c149afbf4c8996fb92427ae41e4649b934ca495991b7852b855" := by
  decide

/-- FIPS 180-4 test vector: the digest of the ASCII bytes of the
three-character message used in the standard's first example. -/
theorem sha256Hex_abc :
    sha256Hex [97, 98, 99] =
      "ba7816bf8f01cfea414140de5dae2223b00361a396177a9cb410ff61f20015ad" := by
  decide

/-- Progress updates never change `totalBytes`. -/
theorem updateTaskProgress_totalBytes (t : DownloadTask) (p : Rat)
    (d : Nat) (s : Rat) (now : Nat) :
    ((updateTaskProgress t p d s now).1).totalBytes = t.totalBytes := rfl

/-- The chunk handler never changes `totalBytes`. -/
theorem blobDataStep_totalBytes (e now : Nat) (t : DownloadTask) (c : Nat) :
    ((blobDataStep e now t c).1).totalBytes = t.totalBytes := by
  unfold blobDataStep
  exact updateTaskProgress_totalBytes ..

/-- Chunk processing never changes `totalBytes`. -/
theorem processChunks_totalBytes (e now : Nat) :
    ∀ (cs : List Nat) (t : DownloadTask),
      ((processChunks e now t cs).1).totalBytes = t.totalBytes := by
  intro cs
  induction cs with
  | nil => intro t; rfl
  | cons c cs ih =>
    intro t
    show ((processChunks e now (blobDataStep e now t c).1 cs).1).totalBytes = _
    rw [ih, blobDataStep_totalBytes]

/-- A completed blob download never changes `totalBytes`. -/
theorem downloadBlobOk_totalBytes (t : DownloadTask)
    (chunks : List (List Nat)) (e now : Nat) :
    ((downloadBlobOk t chunks e now).1).totalBytes = t.totalBytes := by
  unfold downloadBlobOk
  exact processChunks_totalBytes ..

/-- The layer loop never changes `totalBytes`, on either exit path. -/
theorem downloadLayers_totalBytes (fetch : String → FetchResult) (now : Nat) :
    ∀ (ls : List Layer) (t : DownloadTask),
      (∀ t2 evs files, downloadLayers fetch now t ls = Except.ok (t2, evs, files) →
        t2.totalBytes = t.totalBytes) ∧
      (∀ tE m, downloadLayers fetch now t ls = Except.error (tE, m) →
        tE.totalBytes = t.totalBytes) := by
  intro ls
  induction ls with
  | nil =>
    intro t
    constructor
    · intro t2 evs files h
      simp only [downloadLayers] at h
      cases h
      rfl
    · intro tE m h
      simp only [downloadLayers] at h
      exact Except.noConfusion h
  | cons l ls ih =>
    intro t
    cases hf : fetch l.digest with
    | err m2 =>
      constructor
      · intro t2 evs files h
        simp only [downloadLayers, hf] at h
        exact Except.noConfusion h
      · intro tE m h
        simp only [downloadLayers, hf, Except.error.injEq, Prod.mk.injEq] at h
        rw [← h.1]
    | ok chunks =>
      cases hrec : downloadLayers fetch now (downloadBlobOk t chunks (l.size.getD 0) now).1 ls with
      | error e =>
        obtain ⟨tr, mr⟩ := e
        constructor
        · intro t2 evs files h
          simp only [downloadLayers, hf, hrec] at h
          exact Except.noConfusion h
        · intro tE m h
          simp only [downloadLayers, hf, hrec, Except.error.injEq, Prod.mk.injEq] at h
          have h1 := (ih (downloadBlobOk t chunks (l.size.getD 0) now).1).2 tr mr hrec
          rw [← h.1, h1, downloadBlobOk_totalBytes]
      | ok r =>
        obtain ⟨tr, evsr, filesr⟩ := r
        constructor
        · intro t2 evs files h
          simp only [downloadLayers, hf, hrec, Except.ok.injEq, Prod.mk.injEq] at h
          have h1 := (ih (downloadBlobOk t chunks (l.size.getD 0) now).1).1 tr evsr filesr hrec
          rw [← h.1, h1, downloadBlobOk_totalBytes]
        · intro tE m h
          simp only [downloadLayers, hf, hrec] at h
          exact Except.noConfusion h

/-- Replacing the entry for a present key makes lookup return the new
value. -/
theorem find?_map_replace (id : String) (t : DownloadTask) :
    ∀ l : List (String × DownloadTask), l.any (fun p => p.1 = id) = true →
      (l.map (fun p => if p.1 = id then (id, t) else p)).find?
          (fun p => p.1 = id) = some (id, t) := by
  intro l
  induction l with
  | nil => intro h; simp at h
  | cons x xs ih =>
    intro h
    by_cases hx : x.1 = id
    · simp [List.find?, hx]
    · simp only [List.any_cons, Bool.or_eq_true, decide_eq_true_eq] at h
      rcases h with h | h
      · exact absurd h hx
      · simp [List.find?, hx, ih h]

/-- Appending an entry for an absent key makes lookup return it. -/
theorem find?_append_fresh (id : String) (t : DownloadTask) :
    ∀ l : List (String × DownloadTask), l.any (fun p => p.1 = id) = false →
      (l ++ [(id, t)]).find? (fun p => p.1 = id) = some (id, t) := by
  intro l
  induction l with
  | nil => intro _; simp [List.find?]
  | cons x xs ih =>
    intro h
    simp only [List.any_cons, Bool.or_eq_false_iff, decide_eq_false_iff_not] at h
    simp [List.find?, h.1, ih (by simp [h.2])]

/-- `activeTasks.set` followed by `activeTasks.get` on the same key
returns the stored task. -/
theorem getTask_setTask (st : ServiceState) (id : String) (t : DownloadTask) :
    getTask (setTask st id t) id = some t := by
  unfold getTask setTask
  cases h : st.activeTasks.any (fun p => p.1 = id) with
  | true => simp [h, find?_map_replace id t st.activeTasks h]
  | false => simp [h, find?_append_fresh id t st.activeTasks h]

/-- Lookup never reads the controller set. -/
theorem getTask_controllers (l : List (String × DownloadTask))
    (cs cs2 : List String) (id : String) :
    getTask ⟨l, cs⟩ id = getTask ⟨l, cs2⟩ id := rfl

/-- C2, counterexample.  For the manifest with layers of 3 and 4 bytes
and a config descriptor of 5 bytes, `executeDownload` records
`total_bytes = 7`, the layer sum alone, while the claimed formula
`config.size + Σ layers[i].size` gives 12. -/
theorem totalBytes_omits_config_size :
    (executeDownloadOnce sampleTask (Except.ok miTwoLayers) fetchBytes123 1).task.totalBytes = 7 ∧
    specTotalBytes miTwoLayers = 12 := by
  constructor
  · rfl
  · rfl

/-- C2, amended.  Whenever manifest resolution succeeds,
`executeDownload` sets the task's `totalBytes` to the sum of the layer
sizes of the selected manifest alone; the config blob's size is not
added. -/
theorem executeDownload_totalBytes (t0 : DownloadTask)
    (mi : Except String ManifestInfo) (fetch : String → FetchResult)
    (now : Nat) (info : ManifestInfo) (h : mi = Except.ok info) :
    (executeDownloadOnce t0 mi fetch now).task.totalBytes =
      layersTotalBytes info.layers := by
  subst h
  unfold executeDownloadOnce
  cases hrec : downloadLayers fetch now
      { (updateTaskStatus t0 DownloadStatus.downloading none now).1 with
        totalBytes := layersTotalBytes info.layers } info.layers with
  | error e =>
    obtain ⟨tE, m⟩ := e
    simp only [hrec]
    have h1 := (downloadLayers_totalBytes fetch now info.layers _).2 tE m hrec
    exact h1
  | ok r =>
    obtain ⟨t2, evs, files⟩ := r
    simp only [hrec]
    have h1 := (downloadLayers_totalBytes fetch now info.layers _).1 t2 evs files hrec
    exact h1

/-- C2, witness for the amended theorem at a concrete input. -/
theorem executeDownload_totalBytes_witness :
    (executeDownloadOnce sampleTask (Except.ok miTwoLayers) fetchBytes123 1).task.totalBytes =
      layersTotalBytes miTwoLayers.layers :=
  executeDownload_totalBytes sampleTask (Except.ok miTwoLayers) fetchBytes123 1
    miTwoLayers rfl

/-- When every layer fetch succeeds, the layer loop succeeds. -/
theorem downloadLayers_isOk (fetch : String → FetchResult) (now : Nat) :
    ∀ (ls : List Layer) (t : DownloadTask),
      (∀ l ∈ ls, ∃ cs, fetch l.digest = FetchResult.ok cs) →
      ∃ t2 evs files,
        downloadLayers fetch now t ls = Except.ok (t2, evs, files) := by
  intro ls
  induction ls with
  | nil => intro t _; exact ⟨t, [], [], rfl⟩
  | cons l ls ih =>
    intro t hfetch
    obtain ⟨cs, hcs⟩ := hfetch l (by simp)
    obtain ⟨t2, evs, files, hrec⟩ :=
      ih (downloadBlobOk t cs (l.size.getD 0) now).1
        (fun x hx => hfetch x (by simp [hx]))
    refine ⟨t2, (downloadBlobOk t cs (l.size.getD 0) now).2.1 ++ evs,
      (l.digest, (downloadBlobOk t cs (l.size.getD 0) now).2.2) :: files, ?_⟩
    simp only [downloadLayers, hcs, hrec]

/-- C1, counterexample.  A task whose single blob has digest
`sha256:aaa` while the server streams the bytes `[1, 2, 3]` reaches
`completed`, the file on disk holds those bytes, and their actual
SHA-256 digest differs from `sha256:aaa`: completion never checked it. -/
theorem completes_with_mismatched_digest :
    (executeDownloadOnce sampleTask (Except.ok miOneLayer) fetchBytes123 1).task.status =
      DownloadStatus.completed ∧
    (executeDownloadOnce sampleTask (Except.ok miOneLayer) fetchBytes123 1).files =
      [("sha256:aaa", [1, 2, 3])] ∧
    "sha256:" ++ sha256Hex [1, 2, 3] ≠ "sha256:aaa" := by
  refine ⟨rfl, rfl, ?_⟩
  decide

/-- C1, amended.  `verifyFile` only logs and always succeeds, so a task
completes whenever manifest resolution and every blob stream succeed;
no SHA-256 of any written file is computed or compared with the blob's
digest at any point. -/
theorem executeDownload_completes_without_digest_check
    (t0 : DownloadTask) (info : ManifestInfo) (fetch : String → FetchResult)
    (now : Nat)
    (hfetch : ∀ l ∈ info.layers, ∃ cs, fetch l.digest = FetchResult.ok cs) :
    (executeDownloadOnce t0 (Except.ok info) fetch now).task.status =
      DownloadStatus.completed ∧
    ∀ t, verifyFile t = true := by
  constructor
  · unfold executeDownloadOnce
    obtain ⟨t2, evs, files, hrec⟩ := downloadLayers_isOk fetch now info.layers
      { (updateTaskStatus t0 DownloadStatus.downloading none now).1 with
        totalBytes := layersTotalBytes info.layers } hfetch
    simp only [hrec]
    rfl
  · intro t; rfl

/-- C1, witness for the amended theorem at a concrete input. -/
theorem executeDownload_completes_witness :
    (executeDownloadOnce sampleTask (Except.ok miOneLayer) fetchBytes123 1).task.status =
      DownloadStatus.completed ∧
    ∀ t, verifyFile t = true :=
  executeDownload_completes_without_digest_check sampleTask miOneLayer
    fetchBytes123 1 (fun _ _ => ⟨[[1, 2, 3]], rfl⟩)

/-- C10.  Every progress value recorded and emitted by
`updateTaskProgress` is at most 100 (the code clamps with
`Math.min(progress, 100)`), and along any sequence of stream chunks
every emitted `downloadProgress` event carries a value of at most 100,
whatever the task's byte counters are. -/
theorem progress_clamped_at_100 :
    (∀ (t : DownloadTask) (p : Rat) (d : Nat) (s : Rat) (now : Nat),
      ((updateTaskProgress t p d s now).1).progress ≤ 100) ∧
    (∀ (e now : Nat) (t : DownloadTask) (cs : List Nat) (q : Rat),
      Event.downloadProgress q ∈ (processChunks e now t cs).2 → q ≤ 100) := by
  have clamp : ∀ p : Rat, (if p ≤ 100 then p else 100) ≤ 100 := by
    intro p
    by_cases h : p ≤ 100
    · rw [if_pos h]; exact h
    · rw [if_neg h]
  constructor
  · intro t p d s now
    exact clamp p
  · intro e now t cs
    induction cs generalizing t with
    | nil => intro q h; simp [processChunks] at h
    | cons c cs ih =>
      intro q h
      simp only [processChunks, List.mem_append] at h
      rcases h with h | h
      · simp only [blobDataStep, updateTaskProgress, List.mem_singleton] at h
        cases h
        exact clamp _
      · exact ih _ q h

/-- C10, witness: the clamp and the per-chunk bound at concrete
inputs (a raw percentage of 250 is recorded as 100; a 4-byte chunk of
an expected 10 bytes emits 40). -/
theorem progress_clamped_at_100_witness :
    ((updateTaskProgress sampleTask 250 5 0 1).1).progress ≤ 100 ∧
    (40 : Rat) ≤ 100 :=
  ⟨progress_clamped_at_100.1 sampleTask 250 5 0 1,
   progress_clamped_at_100.2 10 1 sampleTask [4] 40 (by
     have h : (processChunks 10 1 sampleTask [4]).2 = [Event.downloadProgress 40] := by
       simp [processChunks, blobDataStep, updateTaskProgress, sampleTask]
       norm_num
     rw [h]
     exact List.mem_singleton.mpr rfl)⟩

/-- C4, counterexample.  `retryDownload` does not clear the stored
error: retrying the concrete failed task keeps `error = some "boom"`. -/
theorem retryDownload_keeps_error :
    (retryDownload failedTask 7).error = some "boom" := rfl

/-- C4, amended.  `retryDownload` resets `retryCount` to 0, restores
status `pending`, zeroes `progress`, `speed` and `downloadedSize`, and
preserves both `downloadedBytes` and the stored error message
(`last_error` is not cleared). -/
theorem retryDownload_spec (t : DownloadTask) (now : Nat) :
    (retryDownload t now).retryCount = 0 ∧
    (retryDownload t now).status = DownloadStatus.pending ∧
    (retryDownload t now).downloadedBytes = t.downloadedBytes ∧
    (retryDownload t now).error = t.error ∧
    (retryDownload t now).progress = 0 ∧
    (retryDownload t now).speed = 0 ∧
    (retryDownload t now).downloadedSize = 0 :=
  ⟨rfl, rfl, rfl, rfl, rfl, rfl, rfl⟩

/-- C7, counterexample.  A failure whose message is the axios text of a
404 on the manifest is handled like any other failure: with budget
remaining (2 of 3 attempts consumed), the catch block bumps the counter
and re-enters `executeDownload` instead of failing the task
immediately. -/
theorem notFound_is_retried :
    handleFailure "Request failed with status code 404" failedTask =
      RetryDecision.retry { failedTask with retryCount := 3 } := by
  decide

/-- C7, amended.  The catch block of `executeDownload` never inspects
the error: every failure, 404 or digest violation included, is retried
while `retryCount < retryAttempts` and only exhaustion of the budget
stops it, so no error kind is immediately fatal. -/
theorem handleFailure_uniform (msg1 msg2 : String) (t : DownloadTask) :
    handleFailure msg1 t = handleFailure msg2 t ∧
    (t.retryCount < retryAttempts →
      handleFailure msg1 t =
        RetryDecision.retry { t with retryCount := t.retryCount + 1 }) ∧
    (retryAttempts ≤ t.retryCount →
      handleFailure msg1 t = RetryDecision.giveUp t) := by
  refine ⟨rfl, ?_, ?_⟩
  · intro h
    simp [handleFailure, h]
  · intro h
    simp [handleFailure, Nat.not_lt.mpr h]

/-- C7, witness for the amended theorem at a concrete input. -/
theorem handleFailure_uniform_witness :
    handleFailure "Request failed with status code 404" sampleTask =
      handleFailure "digest mismatch" sampleTask ∧
    handleFailure "Request failed with status code 404" sampleTask =
      RetryDecision.retry { sampleTask with retryCount := 1 } :=
  ⟨(handleFailure_uniform "Request failed with status code 404"
      "digest mismatch" sampleTask).1,
   (handleFailure_uniform "Request failed with status code 404"
      "digest mismatch" sampleTask).2.1 (by decide)⟩

/-- C9, counterexample.  On a list whose first entry is windows/amd64
and second is linux/amd64, the code picks the windows entry (first with
architecture amd64, any OS), while the claimed tie-break for requested
platform linux/amd64 picks the linux entry. -/
theorem selection_ignores_os :
    selectManifestEntry windowsFirstList =
      some ⟨"sha256:win", some ⟨"windows", "amd64"⟩⟩ ∧
    selectEntryClaim ⟨"linux", "amd64"⟩ windowsFirstList =
      some ⟨"sha256:lin", some ⟨"linux", "amd64"⟩⟩ := by
  constructor
  · rfl
  · rfl

/-- C9, amended.  The engine selects the first entry whose
`platform.architecture` equals the hardcoded string amd64, ignoring
the requested platform and the OS entirely; when no entry has
architecture amd64 it falls back to the first entry of the list. -/
theorem selectManifestEntry_spec :
    (∀ (pre : List ManifestEntry) (m : ManifestEntry) (post : List ManifestEntry),
      (∀ x ∈ pre, ¬(x.platform.map Platform.architecture) = some "amd64") →
      (m.platform.map Platform.architecture) = some "amd64" →
      selectManifestEntry (pre ++ m :: post) = some m) ∧
    (∀ ms : List ManifestEntry,
      (∀ x ∈ ms, ¬(x.platform.map Platform.architecture) = some "amd64") →
      selectManifestEntry ms = ms.head?) := by
  constructor
  · intro pre m post hpre hm
    have hfind : (pre ++ m :: post).find?
        (fun x => (x.platform.map Platform.architecture) = some "amd64") = some m := by
      rw [List.find?_append]
      have h1 : pre.find?
          (fun x => (x.platform.map Platform.architecture) = some "amd64") = none := by
        rw [List.find?_eq_none]
        intro x hx
        simp only [decide_eq_true_eq]
        exact hpre x hx
      rw [h1, Option.none_or]
      exact List.find?_cons_of_pos post (by simp [hm])
    unfold selectManifestEntry
    rw [hfind]
  · intro ms hms
    have hfind : ms.find?
        (fun x => (x.platform.map Platform.architecture) = some "amd64") = none := by
      rw [List.find?_eq_none]
      intro x hx
      simp only [decide_eq_true_eq]
      exact hms x hx
    unfold selectManifestEntry
    rw [hfind]

/-- C9, witness for the amended theorem at concrete inputs. -/
theorem selectManifestEntry_spec_witness :
    selectManifestEntry
        ([⟨"sha256:arm", some ⟨"linux", "arm64"⟩⟩] ++
          ⟨"sha256:win", some ⟨"windows", "amd64"⟩⟩ :: []) =
      some ⟨"sha256:win", some ⟨"windows", "amd64"⟩⟩ ∧
    selectManifestEntry [⟨"sha256:arm", some ⟨"linux", "arm64"⟩⟩] =
      some ⟨"sha256:arm", some ⟨"linux", "arm64"⟩⟩ := by
  constructor
  · exact selectManifestEntry_spec.1 [⟨"sha256:arm", some ⟨"linux", "arm64"⟩⟩]
      ⟨"sha256:win", some ⟨"windows", "amd64"⟩⟩ [] (by decide) (by decide)
  · have h := selectManifestEntry_spec.2
      [⟨"sha256:arm", some ⟨"linux", "arm64"⟩⟩] (by decide)
    rw [h]
    rfl

/-- C5, counterexample.  In a store holding the failed task `A` and
the completed task `B`, deleting `A` returns 200 but leaves `A` in the
store and removes `B`: the endpoint runs the global cleanup instead of
deleting the named task. -/
theorem delete_removes_wrong_tasks :
    (deleteRoute twoTaskState "A").2 = 200 ∧
    getTask (deleteRoute twoTaskState "A").1 "A" = some failedTask ∧
    getTask (deleteRoute twoTaskState "A").1 "B" = none := by
  refine ⟨rfl, rfl, rfl⟩

/-- C5, amended.  `DELETE /api/downloads/:id` on an existing task
returns 400 and changes nothing when the task is `downloading`;
otherwise it returns 200 and replaces the store by the global sweep
that drops every `completed` or `cancelled` task — the named task
itself is removed only if it is in one of those two states. -/
theorem deleteRoute_spec (st : ServiceState) (id : String)
    (t : DownloadTask) (h : getTask st id = some t) :
    (t.status = DownloadStatus.downloading → deleteRoute st id = (st, 400)) ∧
    (t.status ≠ DownloadStatus.downloading →
      (deleteRoute st id).2 = 200 ∧
      (deleteRoute st id).1.activeTasks = st.activeTasks.filter
        (fun p => p.2.status ≠ DownloadStatus.completed ∧
                  p.2.status ≠ DownloadStatus.cancelled)) := by
  constructor
  · intro hdl
    unfold deleteRoute
    rw [h]
    simp [hdl]
  · intro hdl
    unfold deleteRoute
    rw [h]
    simp [hdl, cleanupCompletedTasks]

/-- C5, witness for the amended theorem at a concrete input. -/
theorem deleteRoute_spec_witness :
    (deleteRoute twoTaskState "A").2 = 200 ∧
    (deleteRoute twoTaskState "A").1.activeTasks = twoTaskState.activeTasks.filter
      (fun p => p.2.status ≠ DownloadStatus.completed ∧
                p.2.status ≠ DownloadStatus.cancelled) :=
  (deleteRoute_spec twoTaskState "A" failedTask rfl).2 (by decide)

/-- C8, counterexample.  Pausing the completed task `C` returns HTTP
400 with the store unchanged, not an idempotent success: the route
rejects every status other than `downloading`. -/
theorem pause_completed_rejected :
    pauseRoute completedOnlyState "C" 9 = (completedOnlyState, 400) := rfl

/-- C8, amended.  `pause` returns 400 whenever the task exists and is
not `downloading` (so also on `Completed` and on an already paused
task: pause is not idempotent), and `resume` returns 400 whenever the
task exists and is not `Paused`, both leaving the store unchanged —
matching the HTTP surface rather than the no-op-success reading. -/
theorem pause_resume_route_spec (st : ServiceState) (id : String)
    (now : Nat) (t : DownloadTask) (h : getTask st id = some t) :
    (t.status ≠ DownloadStatus.downloading →
      pauseRoute st id now = (st, 400)) ∧
    (t.status ≠ DownloadStatus.paused → resumeRoute st id = (st, 400)) := by
  constructor
  · intro hs
    unfold pauseRoute
    rw [h]
    simp [hs]
  · intro hs
    unfold resumeRoute
    rw [h]
    simp [hs]

/-- C8, witness for the amended theorem at a concrete input. -/
theorem pause_resume_route_spec_witness :
    pauseRoute completedOnlyState "C" 9 = (completedOnlyState, 400) ∧
    resumeRoute completedOnlyState "C" = (completedOnlyState, 400) := by
  have h := pause_resume_route_spec completedOnlyState "C" 9
    { sampleTask with id := "C", status := DownloadStatus.completed } rfl
  exact ⟨h.1 (by decide), h.2 (by decide)⟩

/-- C6, counterexample.  Creating a task for the unknown source `quay`
(a source the spec itself lists) succeeds synchronously: the route
returns 200 with the created `pending` task stored; the unsupported
source only throws later inside `executeDownload`, and that failure is
retried by the catch block like any other. -/
theorem unknown_source_creates_task :
    (createRoute emptyState quayBody "42" 5).code = 200 ∧
    (createRoute emptyState quayBody "42" 5).task = some quayTask ∧
    getTask (createRoute emptyState quayBody "42" 5).state "42" = some quayTask ∧
    resolveSourceDispatch "quay" =
      Except.error "Unsupported image source: quay" ∧
    handleFailure "Unsupported image source: quay" quayTask =
      RetryDecision.retry { quayTask with retryCount := 1 } := by
  refine ⟨rfl, rfl, rfl, ?_, ?_⟩
  · rfl
  · rfl

/-- C6, amended.  With the three required fields present the create
route always returns 200 and a stored `pending` task record, whatever
the source names; an unknown source is only rejected later, inside
`executeDownload`, whose dispatch throws — and that asynchronous
failure is retried while the budget lasts rather than surfaced as a
synchronous `InvalidArgument`. -/
theorem createRoute_spec (st : ServiceState) (b : CreateBody) (id : String)
    (now : Nat) (h1 : b.imageName ≠ "") (h2 : b.tag ≠ "") (h3 : b.source ≠ "")
    (h4 : b.source ≠ "dockerhub") (h5 : b.source ≠ "aliyun") :
    (createRoute st b id now).code = 200 ∧
    (∃ t, (createRoute st b id now).task = some t ∧
      t.status = DownloadStatus.pending ∧ t.source = b.source ∧
      getTask (createRoute st b id now).state id = some t) ∧
    (∃ msg, resolveSourceDispatch b.source = Except.error msg) ∧
    (∀ (msg : String) (t : DownloadTask), t.retryCount = 0 →
      handleFailure msg t = RetryDecision.retry { t with retryCount := 1 }) := by
  have hcond : ¬(b.imageName = "" ∨ b.tag = "" ∨ b.source = "") := by
    simp [h1, h2, h3]
  refine ⟨?_, ?_, ?_, ?_⟩
  · unfold createRoute
    rw [if_neg hcond]
  · unfold createRoute
    rw [if_neg hcond]
    refine ⟨(startDownload st b id now).2.1, rfl, rfl, rfl, ?_⟩
    exact getTask_setTask st id _
  · unfold resolveSourceDispatch
    rw [if_neg h4, if_neg h5]
    exact ⟨_, rfl⟩
  · intro msg t h
    unfold handleFailure
    rw [if_pos (by rw [h]; exact Nat.zero_lt_succ 2), h]

/-- C6, witness for the amended theorem at a concrete input. -/
theorem createRoute_spec_witness :
    (createRoute emptyState quayBody "42" 5).code = 200 ∧
    (∃ msg, resolveSourceDispatch quayBody.source = Except.error msg) :=
  ⟨(createRoute_spec emptyState quayBody "42" 5 (by decide) (by decide)
      (by decide) (by decide) (by decide)).1,
   (createRoute_spec emptyState quayBody "42" 5 (by decide) (by decide)
      (by decide) (by decide) (by decide)).2.2.1⟩

/-- C3, counterexample.  Pausing the mid-download task succeeds
(`taskPaused` is emitted and the task leaves `downloading`), yet the
abort of the in-flight stream reaches `executeDownload`'s catch, which
records an error and auto-retries: the trace that follows the
successful pause contains a `downloadProgress` event although no
resume was ever issued. -/
theorem progress_resumes_after_pause :
    pauseAbortRetryTrace midDownloadState "1" "canceled" 10 100 1 =
      [Event.taskPaused, Event.taskUpdated DownloadStatus.error,
       Event.downloadError, Event.taskUpdated DownloadStatus.downloading,
       Event.downloadProgress 40] ∧
    Event.resumeIssued ∉ pauseAbortRetryTrace midDownloadState "1" "canceled" 10 100 1 := by
  have h : pauseAbortRetryTrace midDownloadState "1" "canceled" 10 100 1 =
      [Event.taskPaused, Event.taskUpdated DownloadStatus.error,
       Event.downloadError, Event.taskUpdated DownloadStatus.downloading,
       Event.downloadProgress 40] := by
    simp [pauseAbortRetryTrace, pauseDownload, getTask, setTask, midDownloadState,
      downloadingTask, sampleTask, updateTaskStatus, handleFailure, retryAttempts,
      blobDataStep, updateTaskProgress, List.find?]
    norm_num
  rw [h]
  decide

/-- C3, amended.  A successful pause of a `downloading` task does stop
the stream, but the abort error is handled by `executeDownload`'s
generic catch: whenever `retryCount < retryAttempts` the download is
re-entered automatically, so `downloadProgress` events for the task
resume without any matching resume request (only an exhausted retry
budget prevents this). -/
theorem pause_then_auto_retry_emits_progress (st : ServiceState)
    (taskId errMsg : String) (chunkLen expectedSize now : Nat)
    (t : DownloadTask) (hget : getTask st taskId = some t)
    (hdl : t.status = DownloadStatus.downloading)
    (hrc : t.retryCount < retryAttempts) :
    Event.taskPaused ∈ pauseAbortRetryTrace st taskId errMsg chunkLen expectedSize now ∧
    (∃ q, Event.downloadProgress q ∈
      pauseAbortRetryTrace st taskId errMsg chunkLen expectedSize now) ∧
    Event.resumeIssued ∉ pauseAbortRetryTrace st taskId errMsg chunkLen expectedSize now := by
  have hget1 : getTask
      { st with controllers := st.controllers.filter (fun c => c ≠ taskId) }
      taskId = some t := hget
  simp only [pauseAbortRetryTrace, pauseDownload, hget1, hdl, eq_self_iff_true,
    if_true, getTask_setTask, updateTaskStatus, handleFailure, hrc,
    blobDataStep, updateTaskProgress, List.append_assoc, List.cons_append,
    List.nil_append, List.singleton_append]
  refine ⟨List.mem_cons_self _ _, ?_, ?_⟩
  · exact ⟨_, List.mem_cons_of_mem _ (List.mem_cons_of_mem _
      (List.mem_cons_of_mem _ (List.mem_cons_of_mem _
        (List.mem_singleton_self _))))⟩
  · simp

/-- C3, witness for the amended theorem at a concrete input. -/
theorem pause_then_auto_retry_witness :
    Event.taskPaused ∈ pauseAbortRetryTrace midDownloadState "1" "x" 10 100 1 ∧
    (∃ q, Event.downloadProgress q ∈
      pauseAbortRetryTrace midDownloadState "1" "x" 10 100 1) ∧
    Event.resumeIssued ∉ pauseAbortRetryTrace midDownloadState "1" "x" 10 100 1 :=
  pause_then_auto_retry_emits_progress midDownloadState "1" "x" 10 100 1
    downloadingTask rfl rfl (by decide)

end ImageDownloadTool
